import Mathlib

/-!
# Verification of the x-crawler deduplication-and-notification pipeline

Shallow embedding of the Go sources of `Minatonton/x-crawler`:

* `storage.go` — `SeenTweets` (the persistent seen store): `Has`, `Add`,
  `Save`, `Load`, `Count`, `NewSeenTweets`.
* `slack.go` — the urgency/sentiment mappings of the notifier:
  `getEmojiByUrgency`, `getColorByUrgency`, `getSentimentEmoji`.
* `internal/crawler` (part_002) — the pipeline: `Run`, `processTrader`,
  `processKeyword`, and their shared per-tweet loop body.

Modelling conventions:
* A Go `map[string]bool` is an association list `List (String × Bool)`
  with Go lookup semantics: a missing key reads as the zero value `false`
  (`mapGet`), and assignment replaces an existing binding (`mapSet`).
* `encoding/json` round-tripping of a `map[string]bool` is modelled at the
  decoded level: a file holds either nothing (`missing`), content that
  `json.Unmarshal` rejects (`malformed`), or a decoded entry list (`data`).
* External collaborators (Twitter fetch, AI analysis, Slack webhook, file
  write) are oracles packaged in an `Env`; each returns `Except String _`
  exactly where the Go call returns `(T, error)`.
* Observable actions of a cycle (fetch attempts, notification attempts,
  the persist attempt) are recorded in an event trace.
-/

/-- Go map read `m[k]` for a `map[string]bool`: the stored value if the key
is present, the zero value `false` otherwise. -/
def mapGet (m : List (String × Bool)) (k : String) : Bool :=
  match m with
  | [] => false
  | (k₁, v) :: rest => if k₁ = k then v else mapGet rest k

/-- Go map assignment `m[k] = v`: replace the binding if the key is present,
append it otherwise. -/
def mapSet (m : List (String × Bool)) (k : String) (v : Bool) :
    List (String × Bool) :=
  match m with
  | [] => [(k, v)]
  | (k₁, v₁) :: rest =>
      if k₁ = k then (k, v) :: rest else (k₁, v₁) :: mapSet rest k v

/-- `storage.go`: `SeenTweets` manages the already-notified tweet IDs.
The mutex is irrelevant in the sequential embedding; the `filePath` field
is carried by the file-system model instead. -/
structure SeenTweets where
  tweets : List (String × Bool)
  deriving Repr, DecidableEq

namespace SeenTweets

/-- `storage.go` `Has`: `return st.tweets[tweetID]` — note this returns the
stored VALUE (Go zero value `false` when the key is absent), not bare key
presence. -/
def Has (st : SeenTweets) (tweetID : String) : Bool :=
  mapGet st.tweets tweetID

/-- `storage.go` `Add`: `st.tweets[tweetID] = true`. -/
def Add (st : SeenTweets) (tweetID : String) : SeenTweets :=
  ⟨mapSet st.tweets tweetID true⟩

/-- `storage.go` `Count`: `return len(st.tweets)`. -/
def Count (st : SeenTweets) : Nat :=
  st.tweets.length

end SeenTweets

/-- What the seen-tweets file can hold, at the decoded level: no file at the
path, content `json.Unmarshal` rejects, or a decoded identifier-to-boolean
entry list. -/
inductive FileContent where
  | missing
  | malformed
  | data (entries : List (String × Bool))
  deriving Repr, DecidableEq

/-- `storage.go` `Save`: marshals the current map and overwrites the file.
The resulting file content is the serialized map. -/
def SeenTweets.Save (st : SeenTweets) : FileContent :=
  .data st.tweets

/-- `storage.go` `Load`: `os.ReadFile` fails when the file is missing;
`json.Unmarshal` fails on malformed content; otherwise the decoded entries
become the store's map (the fresh empty map it is unmarshalled into adds
nothing). -/
def SeenTweets.Load (content : FileContent) : Except String SeenTweets :=
  match content with
  | .missing => .error "failed to read seen tweets file"
  | .malformed => .error "failed to unmarshal seen tweets"
  | .data entries => .ok ⟨entries⟩

/-- `storage.go` `NewSeenTweets`: start from an empty map; if `os.Stat`
succeeds (the file exists) then `Load`, propagating its error; a missing
file is not an error and yields the empty store. -/
def NewSeenTweets (content : FileContent) : Except String SeenTweets :=
  match content with
  | .missing => .ok ⟨[]⟩
  | c => SeenTweets.Load c

/-- Outcome of process startup with respect to the seen store. -/
inductive StartupResult where
  | fatal (msg : String)
  | started (st : SeenTweets)
  deriving Repr, DecidableEq

/-- `main.go` lines 63–67: `storage.NewSeenTweets(*seenTweetsPath)`; on
error, `log.Fatalf` terminates the process. -/
def mainInitSeenTweets (content : FileContent) : StartupResult :=
  match NewSeenTweets content with
  | .error e => .fatal e
  | .ok st => .started st

/-- `slack.go` `getEmojiByUrgency`. -/
def getEmojiByUrgency (urgency : String) : String :=
  if urgency = "critical" then "🚨"
  else if urgency = "high" then "⚠️"
  else if urgency = "normal" then "💡"
  else if urgency = "low" then "ℹ️"
  else "💡"

/-- `slack.go` `getColorByUrgency`. -/
def getColorByUrgency (urgency : String) : String :=
  if urgency = "critical" then "#FF0000"
  else if urgency = "high" then "#FF9900"
  else if urgency = "normal" then "#36A64F"
  else if urgency = "low" then "#808080"
  else "#36A64F"

/-- `slack.go` `getSentimentEmoji`. -/
def getSentimentEmoji (sentiment : String) : String :=
  if sentiment = "bullish" then "📈 強気"
  else if sentiment = "bearish" then "📉 弱気"
  else if sentiment = "neutral" then "➡️ 中立"
  else "❓ 不明"

/-- `internal/twitter` `Tweet` (the fields the pipeline reads). The creation
timestamp is a Unix epoch integer. -/
structure Tweet where
  id : String
  username : String
  text : String
  createdAt : Int
  deriving Repr, DecidableEq

/-- `internal/ai` `Analysis` — the structured AI judgment. -/
structure Analysis where
  score : Int
  category : String
  sentiment : String
  tickers : List String
  summary : String
  keyPoints : List String
  urgency : String
  reasoning : String
  deriving Repr, DecidableEq

/-- `internal/config` `Trader`. -/
structure Trader where
  username : String
  displayName : String
  priority : String
  deriving Repr, DecidableEq

/-- `internal/config` `Keyword`. -/
structure Keyword where
  query : String
  name : String
  deriving Repr, DecidableEq

/-- `internal/config` `Config`, restricted to what the crawler reads:
the watch targets and the AI minimum score. -/
structure Config where
  traders : List Trader
  keywords : List Keyword
  minScore : Int
  deriving Repr, DecidableEq

/-- External collaborators of one cycle, as deterministic oracles. Each
field stands for the corresponding Go call site and returns
`Except String _` exactly where the Go call returns an `error`. -/
structure Env where
  fetchUser : String → Except String (List Tweet)
  fetchSearch : String → Except String (List Tweet)
  analyze : Tweet → String → Except String Analysis
  notifySimple : Tweet → String → Except String Unit
  notifyTweet : Tweet → Analysis → Except String Unit
  writeFile : List (String × Bool) → Except String Unit

/-- Observable actions of a cycle. -/
inductive Event where
  | fetchUserAttempt (username : String)
  | fetchSearchAttempt (query : String)
  | notifySimpleAttempt (tweetId : String)
  | notifyRichAttempt (tweetId : String)
  | saveAttempt
  deriving Repr, DecidableEq

/-- Accumulator of the per-tweet loop in `processTrader`/`processKeyword`:
the shared seen store, the two counters, and the event trace. -/
structure ProcAcc where
  st : SeenTweets
  processed : Nat
  notified : Nat
  events : List Event
  deriving Repr, DecidableEq

/-- The loop body shared verbatim by `processTrader` and `processKeyword`
(part_002 lines 89–138 and 150–200): skip if seen; count as processed;
when the AI filter is non-nil, analyze — on analysis error fall back to the
simple notification (a failed fallback `continue`s WITHOUT `Add`), on a
score below the minimum `Add` and `continue` without notifying, otherwise
attempt the rich notification (a failure `continue`s WITHOUT `Add`);
when the AI filter is nil, attempt the simple notification (a failure
`continue`s WITHOUT `Add`); every surviving path ends in `Add` and
`notified++`. -/
def processTweet (env : Env) (aiOn : Bool) (minScore : Int) (info : String)
    (acc : ProcAcc) (tweet : Tweet) : ProcAcc :=
  if acc.st.Has tweet.id then acc
  else
    let processed := acc.processed + 1
    if aiOn then
      match env.analyze tweet info with
      | .error _ =>
          match env.notifySimple tweet info with
          | .error _ =>
              { acc with
                  processed := processed,
                  events := acc.events ++ [.notifySimpleAttempt tweet.id] }
          | .ok _ =>
              { st := acc.st.Add tweet.id, processed := processed,
                notified := acc.notified + 1,
                events := acc.events ++ [.notifySimpleAttempt tweet.id] }
      | .ok analysis =>
          if analysis.score < minScore then
            { acc with st := acc.st.Add tweet.id, processed := processed }
          else
            match env.notifyTweet tweet analysis with
            | .error _ =>
                { acc with
                    processed := processed,
                    events := acc.events ++ [.notifyRichAttempt tweet.id] }
            | .ok _ =>
                { st := acc.st.Add tweet.id, processed := processed,
                  notified := acc.notified + 1,
                  events := acc.events ++ [.notifyRichAttempt tweet.id] }
    else
      match env.notifySimple tweet info with
      | .error _ =>
          { acc with
              processed := processed,
              events := acc.events ++ [.notifySimpleAttempt tweet.id] }
      | .ok _ =>
          { st := acc.st.Add tweet.id, processed := processed,
            notified := acc.notified + 1,
            events := acc.events ++ [.notifySimpleAttempt tweet.id] }

/-- Result of processing one watch target: the `(processed, notified, err)`
triple returned to `Run`, plus the events that occurred. -/
structure TargetResult where
  res : Except String (SeenTweets × Nat × Nat)
  events : List Event

/-- part_002 `processTrader`: fetch the trader's tweets (an error returns
immediately), then run the shared loop with the trader context label. -/
def processTrader (env : Env) (aiOn : Bool) (minScore : Int)
    (trader : Trader) (st : SeenTweets) : TargetResult :=
  match env.fetchUser trader.username with
  | .error e => ⟨.error e, [.fetchUserAttempt trader.username]⟩
  | .ok tweets =>
      let info := trader.displayName ++ " (Priority: " ++ trader.priority ++ ")"
      let a := tweets.foldl (processTweet env aiOn minScore info) ⟨st, 0, 0, []⟩
      ⟨.ok (a.st, a.processed, a.notified), .fetchUserAttempt trader.username :: a.events⟩

/-- part_002 `processKeyword`: search for the keyword's tweets (an error
returns immediately), then run the shared loop with the keyword context
label. -/
def processKeyword (env : Env) (aiOn : Bool) (minScore : Int)
    (keyword : Keyword) (st : SeenTweets) : TargetResult :=
  match env.fetchSearch keyword.query with
  | .error e => ⟨.error e, [.fetchSearchAttempt keyword.query]⟩
  | .ok tweets =>
      let info := "Keyword: " ++ keyword.name
      let a := tweets.foldl (processTweet env aiOn minScore info) ⟨st, 0, 0, []⟩
      ⟨.ok (a.st, a.processed, a.notified), .fetchSearchAttempt keyword.query :: a.events⟩

/-- `Run`'s per-trader step: on a target error, log and `continue` with
totals and store untouched; on success, take the updated store and add the
counts. -/
def runTraderStep (env : Env) (aiOn : Bool) (minScore : Int)
    (acc : ProcAcc) (trader : Trader) : ProcAcc :=
  let tr := processTrader env aiOn minScore trader acc.st
  match tr.res with
  | .error _ => { acc with events := acc.events ++ tr.events }
  | .ok (st, p, n) =>
      { st := st, processed := acc.processed + p,
        notified := acc.notified + n, events := acc.events ++ tr.events }

/-- `Run`'s per-keyword step, same shape as `runTraderStep`. -/
def runKeywordStep (env : Env) (aiOn : Bool) (minScore : Int)
    (acc : ProcAcc) (keyword : Keyword) : ProcAcc :=
  let tr := processKeyword env aiOn minScore keyword acc.st
  match tr.res with
  | .error _ => { acc with events := acc.events ++ tr.events }
  | .ok (st, p, n) =>
      { st := st, processed := acc.processed + p,
        notified := acc.notified + n, events := acc.events ++ tr.events }

/-- Result of one `Run` cycle: final store, totals, trace, the outcome of
the single `Save`, and the error `Run` returns to its caller. -/
structure RunResult where
  st : SeenTweets
  totalProcessed : Nat
  totalNotified : Nat
  events : List Event
  saveResult : Except String Unit
  runReturn : Option String
  deriving Repr

/-- part_002 `Run`: process every trader then every keyword, `continue`-ing
past per-target errors; then `Save` once (a save error is only logged);
finally `return nil`. -/
def Run (env : Env) (cfg : Config) (aiOn : Bool) (st : SeenTweets) : RunResult :=
  let a₁ := cfg.traders.foldl (runTraderStep env aiOn cfg.minScore) ⟨st, 0, 0, []⟩
  let a₂ := cfg.keywords.foldl (runKeywordStep env aiOn cfg.minScore) a₁
  let save := env.writeFile a₂.st.tweets
  { st := a₂.st, totalProcessed := a₂.processed, totalNotified := a₂.notified,
    events := a₂.events ++ [.saveAttempt], saveResult := save, runReturn := none }

/-- `e.isErr` is `true` exactly when the Go call returned a non-nil error. -/
def isErr {α : Type} (e : Except String α) : Bool :=
  match e with
  | .error _ => true
  | .ok _ => false

theorem mapGet_mapSet (m : List (String × Bool)) (i q : String) (v : Bool) :
    mapGet (mapSet m i v) q = if i = q then v else mapGet m q := by
  induction m with
  | nil => simp [mapGet, mapSet]
  | cons hd tl ih =>
      obtain ⟨k, w⟩ := hd
      by_cases hki : k = i
      · subst hki
        by_cases hkq : k = q <;> simp [mapSet, mapGet, hkq]
      · by_cases hkq : k = q
        · have hiq : ¬ i = q := fun h => hki (hkq.trans h.symm)
          have hqi : ¬ q = i := fun h => hki (hkq.trans h)
          simp [mapSet, mapGet, hki, hkq, hiq, hqi]
        · simp [mapSet, mapGet, hki, hkq, ih]

theorem Has_Add (st : SeenTweets) (i q : String) :
    (st.Add i).Has q = if i = q then true else st.Has q := by
  simp [SeenTweets.Add, SeenTweets.Has, mapGet_mapSet]

theorem Has_Add_self (st : SeenTweets) (i : String) :
    (st.Add i).Has i = true := by
  simp [Has_Add]

theorem Has_Add_mono (st : SeenTweets) (i q : String) (h : st.Has q = true) :
    (st.Add i).Has q = true := by
  rw [Has_Add]
  by_cases hiq : i = q <;> simp [hiq, h]

theorem Has_foldl_Add (ids : List String) (st : SeenTweets) (q : String) :
    (ids.foldl SeenTweets.Add st).Has q = (st.Has q || decide (q ∈ ids)) := by
  induction ids generalizing st with
  | nil => simp
  | cons i rest ih =>
      rw [List.foldl_cons, ih, Has_Add]
      by_cases hiq : i = q
      · simp [hiq]
      · have hqi : ¬ q = i := fun h => hiq h.symm
        simp [hiq, hqi]

/-- C5: after adding exactly the identifiers of `ids` (distinct) to a fresh
store, `Save` followed by `Load` yields a store whose `Has` is `true` for
exactly those identifiers and `false` for any other probed identifier. -/
theorem save_load_roundtrip (ids : List String) (q : String) (hnd : ids.Nodup) :
    ∃ loaded : SeenTweets,
      SeenTweets.Load (SeenTweets.Save (ids.foldl SeenTweets.Add ⟨[]⟩)) = .ok loaded ∧
      (loaded.Has q = true ↔ q ∈ ids) := by
  refine ⟨ids.foldl SeenTweets.Add ⟨[]⟩, rfl, ?_⟩
  rw [Has_foldl_Add]
  simp [SeenTweets.Has, mapGet]

/-- Witness for C5 at `ids = ["a", "b"]`, probe `"c"`. -/
theorem save_load_roundtrip_witness :
    ∃ loaded : SeenTweets,
      SeenTweets.Load (SeenTweets.Save ((["a", "b"] : List String).foldl SeenTweets.Add ⟨[]⟩)) = .ok loaded ∧
      (loaded.Has "c" = true ↔ "c" ∈ (["a", "b"] : List String)) :=
  save_load_roundtrip ["a", "b"] "c" (by decide)

/-- C6: `NewSeenTweets` on a missing file yields the empty store without an
error; on an existing file with malformed content it returns an error, and
`main` treats that error as fatal at startup. -/
theorem load_missing_empty_and_malformed_fatal :
    NewSeenTweets FileContent.missing = .ok ⟨[]⟩ ∧
    (∃ msg, NewSeenTweets FileContent.malformed = .error msg) ∧
    (∃ msg, mainInitSeenTweets FileContent.malformed = .fatal msg) :=
  ⟨rfl, ⟨_, rfl⟩, ⟨_, rfl⟩⟩

/-- C8 counterexample: a loaded entry mapping identifier `"x"` to `false`
has its key present in the mapping, yet `Has` reports it as NOT seen —
`Has` returns the stored value, not key presence. -/
theorem has_ignores_value_counterexample :
    SeenTweets.Load (FileContent.data [("x", false)]) = .ok ⟨[("x", false)]⟩ ∧
    "x" ∈ (SeenTweets.mk [("x", false)]).tweets.map Prod.fst ∧
    SeenTweets.Has ⟨[("x", false)]⟩ "x" = false :=
  ⟨rfl, by decide, by decide⟩

/-- C8 amended: `Has` reports an identifier as seen exactly when the mapping
stores `true` for it: an absent key reads as `false`, a loaded entry mapping
an identifier to `false` is reported unseen, and since `Add` always stores
`true`, every identifier added in-process is reported seen. -/
theorem has_reads_stored_value (st : SeenTweets) (i : String)
    (entries : List (String × Bool)) (q : String)
    (hall : ∀ p ∈ entries, p.2 = false) :
    (SeenTweets.Add st i).Has i = true ∧
    SeenTweets.Has ⟨entries⟩ q = false := by
  refine ⟨Has_Add_self st i, ?_⟩
  induction entries with
  | nil => rfl
  | cons hd tl ih =>
      obtain ⟨k, v⟩ := hd
      have hv : v = false := hall (k, v) (List.mem_cons_self _ _)
      have ih2 := ih (fun p hp => hall p (List.mem_cons_of_mem _ hp))
      simp only [SeenTweets.Has, mapGet] at ih2 ⊢
      by_cases hk : k = q
      · simp [hk, hv]
      · simp [hk, ih2]

/-- Witness for C8's amended theorem at a store `{"y": true}`, added id
`"z"`, loaded entries `[("x", false)]`, probe `"x"`. -/
theorem has_reads_stored_value_witness :
    (SeenTweets.Add ⟨[("y", true)]⟩ "z").Has "z" = true ∧
    SeenTweets.Has ⟨[("x", false)]⟩ "x" = false :=
  has_reads_stored_value ⟨[("y", true)]⟩ "z" [("x", false)] "x" (by decide)

/-- C9: the urgency-to-icon/color mapping and the sentiment-to-icon/label
mapping are deterministic total functions: critical→red, high→orange,
normal→green, low→gray, any unrecognized urgency is treated as normal;
bullish/bearish/neutral map to their fixed labels and any unrecognized
sentiment maps to the unknown label. -/
theorem urgency_sentiment_mapping (u s : String)
    (hu1 : u ≠ "critical") (hu2 : u ≠ "high") (hu3 : u ≠ "normal") (hu4 : u ≠ "low")
    (hs1 : s ≠ "bullish") (hs2 : s ≠ "bearish") (hs3 : s ≠ "neutral") :
    (getEmojiByUrgency "critical" = "🚨" ∧ getColorByUrgency "critical" = "#FF0000") ∧
    (getEmojiByUrgency "high" = "⚠️" ∧ getColorByUrgency "high" = "#FF9900") ∧
    (getEmojiByUrgency "normal" = "💡" ∧ getColorByUrgency "normal" = "#36A64F") ∧
    (getEmojiByUrgency "low" = "ℹ️" ∧ getColorByUrgency "low" = "#808080") ∧
    (getEmojiByUrgency u = getEmojiByUrgency "normal" ∧
      getColorByUrgency u = getColorByUrgency "normal") ∧
    (getSentimentEmoji "bullish" = "📈 強気" ∧ getSentimentEmoji "bearish" = "📉 弱気" ∧
      getSentimentEmoji "neutral" = "➡️ 中立" ∧ getSentimentEmoji s = "❓ 不明") := by
  refine ⟨⟨?_, ?_⟩, ⟨?_, ?_⟩, ⟨?_, ?_⟩, ⟨?_, ?_⟩, ⟨?_, ?_⟩, ?_, ?_, ?_, ?_⟩ <;>
    simp [getEmojiByUrgency, getColorByUrgency, getSentimentEmoji,
      hu1, hu2, hu3, hu4, hs1, hs2, hs3]

/-- Witness for C9 at unrecognized urgency `"weird"` and sentiment `"odd"`. -/
theorem urgency_sentiment_mapping_witness :
    (getEmojiByUrgency "critical" = "🚨" ∧ getColorByUrgency "critical" = "#FF0000") ∧
    (getEmojiByUrgency "high" = "⚠️" ∧ getColorByUrgency "high" = "#FF9900") ∧
    (getEmojiByUrgency "normal" = "💡" ∧ getColorByUrgency "normal" = "#36A64F") ∧
    (getEmojiByUrgency "low" = "ℹ️" ∧ getColorByUrgency "low" = "#808080") ∧
    (getEmojiByUrgency "weird" = getEmojiByUrgency "normal" ∧
      getColorByUrgency "weird" = getColorByUrgency "normal") ∧
    (getSentimentEmoji "bullish" = "📈 強気" ∧ getSentimentEmoji "bearish" = "📉 弱気" ∧
      getSentimentEmoji "neutral" = "➡️ 中立" ∧ getSentimentEmoji "odd" = "❓ 不明") :=
  urgency_sentiment_mapping "weird" "odd" (by decide) (by decide) (by decide)
    (by decide) (by decide) (by decide) (by decide)

/-- C10: `Run` returns `nil` to its caller for every environment,
configuration and starting store — no error of a cycle is propagated. -/
theorem run_always_returns_nil (env : Env) (cfg : Config) (aiOn : Bool)
    (st : SeenTweets) : (Run env cfg aiOn st).runReturn = none :=
  rfl

/-- Events that are fetch attempts. -/
def Event.isFetch : Event → Bool
  | .fetchUserAttempt _ => true
  | .fetchSearchAttempt _ => true
  | _ => false

/-- Events that are persist attempts. -/
def Event.isSave : Event → Bool
  | .saveAttempt => true
  | _ => false

theorem processTweet_events_filter (env : Env) (aiOn : Bool) (minScore : Int)
    (info : String) (acc : ProcAcc) (t : Tweet) (p : Event → Bool)
    (hp : ∀ id, p (.notifySimpleAttempt id) = false ∧ p (.notifyRichAttempt id) = false) :
    (processTweet env aiOn minScore info acc t).events.filter p = acc.events.filter p := by
  unfold processTweet
  repeat' split
  all_goals simp [List.filter_append, (hp t.id).1, (hp t.id).2]

theorem foldl_processTweet_events_filter (env : Env) (aiOn : Bool)
    (minScore : Int) (info : String) (tweets : List Tweet) (acc : ProcAcc)
    (p : Event → Bool)
    (hp : ∀ id, p (.notifySimpleAttempt id) = false ∧ p (.notifyRichAttempt id) = false) :
    ((tweets.foldl (processTweet env aiOn minScore info) acc).events).filter p =
      acc.events.filter p := by
  induction tweets generalizing acc with
  | nil => rfl
  | cons t rest ih =>
      rw [List.foldl_cons, ih]
      exact processTweet_events_filter env aiOn minScore info acc t p hp

theorem processTrader_events_filter (env : Env) (aiOn : Bool) (minScore : Int)
    (trader : Trader) (st : SeenTweets) (p : Event → Bool)
    (hp : ∀ id, p (.notifySimpleAttempt id) = false ∧ p (.notifyRichAttempt id) = false) :
    (processTrader env aiOn minScore trader st).events.filter p =
      List.filter p [Event.fetchUserAttempt trader.username] := by
  cases henv : env.fetchUser trader.username with
  | error e => simp [processTrader, henv]
  | ok tweets =>
      have h := foldl_processTweet_events_filter env aiOn minScore
        (trader.displayName ++ " (Priority: " ++ trader.priority ++ ")") tweets
        ⟨st, 0, 0, []⟩ p hp
      simp only [ProcAcc.events] at h
      simp [processTrader, henv, List.filter_cons, h]

theorem processKeyword_events_filter (env : Env) (aiOn : Bool) (minScore : Int)
    (keyword : Keyword) (st : SeenTweets) (p : Event → Bool)
    (hp : ∀ id, p (.notifySimpleAttempt id) = false ∧ p (.notifyRichAttempt id) = false) :
    (processKeyword env aiOn minScore keyword st).events.filter p =
      List.filter p [Event.fetchSearchAttempt keyword.query] := by
  cases henv : env.fetchSearch keyword.query with
  | error e => simp [processKeyword, henv]
  | ok tweets =>
      have h := foldl_processTweet_events_filter env aiOn minScore
        ("Keyword: " ++ keyword.name) tweets ⟨st, 0, 0, []⟩ p hp
      simp only [ProcAcc.events] at h
      simp [processKeyword, henv, List.filter_cons, h]

theorem runTraderStep_events_filter (env : Env) (aiOn : Bool) (minScore : Int)
    (acc : ProcAcc) (trader : Trader) (p : Event → Bool)
    (hp : ∀ id, p (.notifySimpleAttempt id) = false ∧ p (.notifyRichAttempt id) = false) :
    (runTraderStep env aiOn minScore acc trader).events.filter p =
      acc.events.filter p ++ List.filter p [Event.fetchUserAttempt trader.username] := by
  have h := processTrader_events_filter env aiOn minScore trader acc.st p hp
  cases htr : (processTrader env aiOn minScore trader acc.st).res with
  | error e => simp [runTraderStep, htr, List.filter_append, h]
  | ok v =>
      obtain ⟨st2, p2, n2⟩ := v
      simp [runTraderStep, htr, List.filter_append, h]

theorem runKeywordStep_events_filter (env : Env) (aiOn : Bool) (minScore : Int)
    (acc : ProcAcc) (keyword : Keyword) (p : Event → Bool)
    (hp : ∀ id, p (.notifySimpleAttempt id) = false ∧ p (.notifyRichAttempt id) = false) :
    (runKeywordStep env aiOn minScore acc keyword).events.filter p =
      acc.events.filter p ++ List.filter p [Event.fetchSearchAttempt keyword.query] := by
  have h := processKeyword_events_filter env aiOn minScore keyword acc.st p hp
  cases htr : (processKeyword env aiOn minScore keyword acc.st).res with
  | error e => simp [runKeywordStep, htr, List.filter_append, h]
  | ok v =>
      obtain ⟨st2, p2, n2⟩ := v
      simp [runKeywordStep, htr, List.filter_append, h]

theorem runTraders_events_filter (env : Env) (aiOn : Bool) (minScore : Int)
    (traders : List Trader) (acc : ProcAcc) (p : Event → Bool)
    (hp : ∀ id, p (.notifySimpleAttempt id) = false ∧ p (.notifyRichAttempt id) = false) :
    ((traders.foldl (runTraderStep env aiOn minScore) acc).events).filter p =
      acc.events.filter p ++
        (traders.map (fun t => Event.fetchUserAttempt t.username)).filter p := by
  induction traders generalizing acc with
  | nil => simp
  | cons t rest ih =>
      rw [List.foldl_cons, ih, runTraderStep_events_filter env aiOn minScore acc t p hp]
      simp only [List.filter_cons, List.filter_nil, List.append_assoc]
      split <;> rename_i hx <;> simp [List.filter_cons, hx]

theorem runKeywords_events_filter (env : Env) (aiOn : Bool) (minScore : Int)
    (keywords : List Keyword) (acc : ProcAcc) (p : Event → Bool)
    (hp : ∀ id, p (.notifySimpleAttempt id) = false ∧ p (.notifyRichAttempt id) = false) :
    ((keywords.foldl (runKeywordStep env aiOn minScore) acc).events).filter p =
      acc.events.filter p ++
        (keywords.map (fun k => Event.fetchSearchAttempt k.query)).filter p := by
  induction keywords generalizing acc with
  | nil => simp
  | cons k rest ih =>
      rw [List.foldl_cons, ih, runKeywordStep_events_filter env aiOn minScore acc k p hp]
      simp only [List.filter_cons, List.filter_nil, List.append_assoc]
      split <;> rename_i hx <;> simp [List.filter_cons, hx]

theorem Run_events_filter (env : Env) (cfg : Config) (aiOn : Bool)
    (st : SeenTweets) (p : Event → Bool)
    (hp : ∀ id, p (.notifySimpleAttempt id) = false ∧ p (.notifyRichAttempt id) = false) :
    (Run env cfg aiOn st).events.filter p =
      ((cfg.traders.map fun t => Event.fetchUserAttempt t.username).filter p ++
        (cfg.keywords.map fun k => Event.fetchSearchAttempt k.query).filter p) ++
      List.filter p [Event.saveAttempt] := by
  have h1 := runTraders_events_filter env aiOn cfg.minScore cfg.traders ⟨st, 0, 0, []⟩ p hp
  have h2 := runKeywords_events_filter env aiOn cfg.minScore cfg.keywords
    (cfg.traders.foldl (runTraderStep env aiOn cfg.minScore) ⟨st, 0, 0, []⟩) p hp
  simp only [ProcAcc.events] at h1
  simp [Run, List.filter_append, h1, h2, List.append_assoc]

/-- C7: in every cycle, for every environment (in particular whatever fetch
errors occur), a fetch is attempted for every configured trader and keyword
in order — one failing target never prevents later targets from being
processed — and the cycle attempts to persist the seen store exactly once. -/
theorem cycle_fetch_isolation_and_single_save (env : Env) (cfg : Config)
    (aiOn : Bool) (st : SeenTweets) :
    (Run env cfg aiOn st).events.filter Event.isFetch =
      (cfg.traders.map fun t => Event.fetchUserAttempt t.username) ++
      (cfg.keywords.map fun k => Event.fetchSearchAttempt k.query) ∧
    ((Run env cfg aiOn st).events.filter Event.isSave).length = 1 := by
  have hpf : ∀ id, Event.isFetch (.notifySimpleAttempt id) = false ∧
      Event.isFetch (.notifyRichAttempt id) = false := fun _ => ⟨rfl, rfl⟩
  have hps : ∀ id, Event.isSave (.notifySimpleAttempt id) = false ∧
      Event.isSave (.notifyRichAttempt id) = false := fun _ => ⟨rfl, rfl⟩
  constructor
  · rw [Run_events_filter env cfg aiOn st Event.isFetch hpf]
    have h1 : (cfg.traders.map fun t => Event.fetchUserAttempt t.username).filter
        Event.isFetch = cfg.traders.map fun t => Event.fetchUserAttempt t.username := by
      apply List.filter_eq_self.mpr
      intro e he
      simp only [List.mem_map] at he
      obtain ⟨t, _, rfl⟩ := he
      rfl
    have h2 : (cfg.keywords.map fun k => Event.fetchSearchAttempt k.query).filter
        Event.isFetch = cfg.keywords.map fun k => Event.fetchSearchAttempt k.query := by
      apply List.filter_eq_self.mpr
      intro e he
      simp only [List.mem_map] at he
      obtain ⟨k, _, rfl⟩ := he
      rfl
    simp [h1, h2, List.filter_cons, Event.isFetch]
  · rw [Run_events_filter env cfg aiOn st Event.isSave hps]
    have h1 : (cfg.traders.map fun t => Event.fetchUserAttempt t.username).filter
        Event.isSave = [] := by
      apply List.filter_eq_nil.mpr
      intro e he
      simp only [List.mem_map] at he
      obtain ⟨t, _, rfl⟩ := he
      simp [Event.isSave]
    have h2 : (cfg.keywords.map fun k => Event.fetchSearchAttempt k.query).filter
        Event.isSave = [] := by
      apply List.filter_eq_nil.mpr
      intro e he
      simp only [List.mem_map] at he
      obtain ⟨k, _, rfl⟩ := he
      simp [Event.isSave]
    simp [h1, h2, List.filter_cons, Event.isSave]

theorem processTweet_Has_mono (env : Env) (aiOn : Bool) (minScore : Int)
    (info : String) (acc : ProcAcc) (t : Tweet) (q : String)
    (h : acc.st.Has q = true) :
    ((processTweet env aiOn minScore info acc t).st).Has q = true := by
  unfold processTweet
  repeat' split
  all_goals simp [Has_Add_mono, h]

theorem foldl_processTweet_Has_mono (env : Env) (aiOn : Bool) (minScore : Int)
    (info : String) (tweets : List Tweet) (acc : ProcAcc) (q : String)
    (h : acc.st.Has q = true) :
    (((tweets.foldl (processTweet env aiOn minScore info) acc)).st).Has q = true := by
  induction tweets generalizing acc with
  | nil => exact h
  | cons t rest ih =>
      rw [List.foldl_cons]
      exact ih _ (processTweet_Has_mono env aiOn minScore info acc t q h)

theorem runTraderStep_Has_mono (env : Env) (aiOn : Bool) (minScore : Int)
    (acc : ProcAcc) (trader : Trader) (q : String) (h : acc.st.Has q = true) :
    ((runTraderStep env aiOn minScore acc trader).st).Has q = true := by
  unfold runTraderStep processTrader
  cases henv : env.fetchUser trader.username with
  | error e => simpa [henv] using h
  | ok tweets =>
      simpa [henv] using
        foldl_processTweet_Has_mono env aiOn minScore
          (trader.displayName ++ " (Priority: " ++ trader.priority ++ ")")
          tweets ⟨acc.st, 0, 0, []⟩ q h

theorem runKeywordStep_Has_mono (env : Env) (aiOn : Bool) (minScore : Int)
    (acc : ProcAcc) (keyword : Keyword) (q : String) (h : acc.st.Has q = true) :
    ((runKeywordStep env aiOn minScore acc keyword).st).Has q = true := by
  unfold runKeywordStep processKeyword
  cases henv : env.fetchSearch keyword.query with
  | error e => simpa [henv] using h
  | ok tweets =>
      simpa [henv] using
        foldl_processTweet_Has_mono env aiOn minScore
          ("Keyword: " ++ keyword.name) tweets ⟨acc.st, 0, 0, []⟩ q h

theorem Run_Has_mono (env : Env) (cfg : Config) (aiOn : Bool)
    (st : SeenTweets) (q : String) (h : st.Has q = true) :
    (((Run env cfg aiOn st)).st).Has q = true := by
  unfold Run
  have h1 : ∀ (traders : List Trader) (acc : ProcAcc), acc.st.Has q = true →
      ((traders.foldl (runTraderStep env aiOn cfg.minScore) acc).st).Has q = true := by
    intro traders
    induction traders with
    | nil => intro acc hacc; exact hacc
    | cons t rest ih =>
        intro acc hacc
        rw [List.foldl_cons]
        exact ih _ (runTraderStep_Has_mono env aiOn cfg.minScore acc t q hacc)
  have h2 : ∀ (keywords : List Keyword) (acc : ProcAcc), acc.st.Has q = true →
      ((keywords.foldl (runKeywordStep env aiOn cfg.minScore) acc).st).Has q = true := by
    intro keywords
    induction keywords with
    | nil => intro acc hacc; exact hacc
    | cons k rest ih =>
        intro acc hacc
        rw [List.foldl_cons]
        exact ih _ (runKeywordStep_Has_mono env aiOn cfg.minScore acc k q hacc)
  exact h2 _ _ (h1 _ ⟨st, 0, 0, []⟩ h)

theorem processTweet_skip_seen (env : Env) (aiOn : Bool) (minScore : Int)
    (info : String) (acc : ProcAcc) (t : Tweet) (h : acc.st.Has t.id = true) :
    processTweet env aiOn minScore info acc t = acc := by
  unfold processTweet
  simp [h]

/-- C2: once an identifier `P` has been added (`Add`), `Has` reports it seen;
feeding any post with identifier `P` to the per-tweet pipeline is then a
pure SKIP (store, processed count, notified count and event trace all
unchanged — no notification is attempted); the seen mark survives whole
further cycles (`Run`); and it survives persistence (`Save` then `Load`
returns the identical store). -/
theorem seen_ids_always_skip :
    (∀ (st : SeenTweets) (P : String), (st.Add P).Has P = true) ∧
    (∀ (env : Env) (aiOn : Bool) (minScore : Int) (info : String)
        (acc : ProcAcc) (t : Tweet), acc.st.Has t.id = true →
      processTweet env aiOn minScore info acc t = acc) ∧
    (∀ (env : Env) (cfg : Config) (aiOn : Bool) (st : SeenTweets) (P : String),
      st.Has P = true → ((Run env cfg aiOn st).st).Has P = true) ∧
    (∀ st : SeenTweets, SeenTweets.Load (SeenTweets.Save st) = .ok st) :=
  ⟨Has_Add_self, processTweet_skip_seen, Run_Has_mono, fun _ => rfl⟩

/-- A concrete tweet used by witnesses and counterexamples. -/
def tweet1 : Tweet := ⟨"1", "alice", "hello", 0⟩

/-- A concrete judgment with the given score. -/
def analysisScore (sc : Int) : Analysis :=
  ⟨sc, "buy-signal", "bullish", [], "sum", [], "high", "why"⟩

/-- One configured trader and no keywords. -/
def cfgOne : Config := ⟨[⟨"alice", "Alice", "high"⟩], [], 70⟩

/-- Everything succeeds: the fetch returns `tweet1`, analysis scores 85,
both notifications and the file write succeed. -/
def envAllOk : Env where
  fetchUser := fun _ => .ok [tweet1]
  fetchSearch := fun _ => .ok []
  analyze := fun _ _ => .ok (analysisScore 85)
  notifySimple := fun _ _ => .ok ()
  notifyTweet := fun _ _ => .ok ()
  writeFile := fun _ => .ok ()

/-- Witness for C2: with `"1"` already seen, the loop body is a no-op on a
concrete accumulator, and a whole cycle keeps `"1"` seen. -/
theorem seen_ids_always_skip_witness :
    processTweet envAllOk false 0 "info" ⟨⟨[("1", true)]⟩, 0, 0, []⟩ tweet1 =
      ⟨⟨[("1", true)]⟩, 0, 0, []⟩ ∧
    ((Run envAllOk cfgOne false ⟨[("1", true)]⟩).st).Has "1" = true :=
  ⟨seen_ids_always_skip.2.1 envAllOk false 0 "info" ⟨⟨[("1", true)]⟩, 0, 0, []⟩
      tweet1 (by decide),
    seen_ids_always_skip.2.2.1 envAllOk cfgOne false ⟨[("1", true)]⟩ "1" (by decide)⟩

/-- C3: with filtering enabled and the scorer succeeding on a new post, a
judgment whose score equals the configured minimum leads to a rich
notification attempt, while a score strictly below the minimum leads to no
notification attempt at all, the identifier being added to the seen store,
and the notified count unchanged. -/
theorem threshold_gate_exact (env : Env) (minScore : Int) (info : String)
    (st : SeenTweets) (p n : Nat) (t : Tweet) (a : Analysis)
    (hseen : st.Has t.id = false) (hana : env.analyze t info = .ok a) :
    (a.score = minScore →
      Event.notifyRichAttempt t.id ∈
        (processTweet env true minScore info ⟨st, p, n, []⟩ t).events) ∧
    (a.score < minScore →
      (processTweet env true minScore info ⟨st, p, n, []⟩ t).events = [] ∧
      ((processTweet env true minScore info ⟨st, p, n, []⟩ t).st).Has t.id = true ∧
      (processTweet env true minScore info ⟨st, p, n, []⟩ t).notified = n) := by
  constructor
  · intro hsc
    have hnl : ¬ (a.score < minScore) := by omega
    cases hnt : env.notifyTweet t a with
    | error e => simp [processTweet, hseen, hana, hnl, hnt]
    | ok u => simp [processTweet, hseen, hana, hnl, hnt]
  · intro hsc
    simp [processTweet, hseen, hana, hsc, Has_Add_self]

/-- Analysis succeeds with the given score; everything else succeeds. -/
def envScore (sc : Int) : Env where
  fetchUser := fun _ => .ok [tweet1]
  fetchSearch := fun _ => .ok []
  analyze := fun _ _ => .ok (analysisScore sc)
  notifySimple := fun _ _ => .ok ()
  notifyTweet := fun _ _ => .ok ()
  writeFile := fun _ => .ok ()

/-- Witness for C3 at minimum 70: one instance with score exactly 70, one
with score 69. -/
theorem threshold_gate_exact_witness :
    (((analysisScore 70).score = 70 →
        Event.notifyRichAttempt tweet1.id ∈
          (processTweet (envScore 70) true 70 "info" ⟨⟨[]⟩, 0, 0, []⟩ tweet1).events) ∧
      ((analysisScore 70).score < 70 →
        (processTweet (envScore 70) true 70 "info" ⟨⟨[]⟩, 0, 0, []⟩ tweet1).events = [] ∧
        ((processTweet (envScore 70) true 70 "info" ⟨⟨[]⟩, 0, 0, []⟩ tweet1).st).Has tweet1.id = true ∧
        (processTweet (envScore 70) true 70 "info" ⟨⟨[]⟩, 0, 0, []⟩ tweet1).notified = 0)) ∧
    (((analysisScore 69).score = 70 →
        Event.notifyRichAttempt tweet1.id ∈
          (processTweet (envScore 69) true 70 "info" ⟨⟨[]⟩, 0, 0, []⟩ tweet1).events) ∧
      ((analysisScore 69).score < 70 →
        (processTweet (envScore 69) true 70 "info" ⟨⟨[]⟩, 0, 0, []⟩ tweet1).events = [] ∧
        ((processTweet (envScore 69) true 70 "info" ⟨⟨[]⟩, 0, 0, []⟩ tweet1).st).Has tweet1.id = true ∧
        (processTweet (envScore 69) true 70 "info" ⟨⟨[]⟩, 0, 0, []⟩ tweet1).notified = 0)) :=
  ⟨threshold_gate_exact (envScore 70) 70 "info" ⟨[]⟩ 0 0 tweet1 (analysisScore 70)
      (by decide) rfl,
    threshold_gate_exact (envScore 69) 70 "info" ⟨[]⟩ 0 0 tweet1 (analysisScore 69)
      (by decide) rfl⟩

/-- Analysis and both notification deliveries fail. -/
def envDeliverFail : Env where
  fetchUser := fun _ => .ok [tweet1]
  fetchSearch := fun _ => .ok []
  analyze := fun _ _ => .error "ai down"
  notifySimple := fun _ _ => .error "slack down"
  notifyTweet := fun _ _ => .error "slack down"
  writeFile := fun _ => .ok ()

/-- C1 counterexample: the new post `"1"` reaches a delivery attempt, the
delivery returns an error, and its identifier is NOT added to the seen
store (`continue` precedes `Add` in the loop); feeding it again leads to a
second delivery attempt — the post IS retried. -/
theorem delivery_error_not_marked_counterexample :
    envDeliverFail.notifySimple tweet1 "info" = .error "slack down" ∧
    (processTweet envDeliverFail false 0 "info" ⟨⟨[]⟩, 0, 0, []⟩ tweet1).events =
      [Event.notifySimpleAttempt "1"] ∧
    ((processTweet envDeliverFail false 0 "info" ⟨⟨[]⟩, 0, 0, []⟩ tweet1).st).Has "1" = false ∧
    (processTweet envDeliverFail false 0 "info"
        (processTweet envDeliverFail false 0 "info" ⟨⟨[]⟩, 0, 0, []⟩ tweet1) tweet1).events =
      [Event.notifySimpleAttempt "1", Event.notifySimpleAttempt "1"] := by
  refine ⟨rfl, ?_, ?_, ?_⟩ <;> decide

/-- C1 amended: for every fetched post that is new and reaches a delivery
attempt, if the delivery call returns an error the post's identifier is NOT
added to the seen store — the loop `continue`s before `Add` — so the post
remains unseen and is retried in later cycles. -/
theorem delivery_error_leaves_unseen (env : Env) (aiOn : Bool)
    (minScore : Int) (info : String) (st : SeenTweets) (p n : Nat) (t : Tweet)
    (hseen : st.Has t.id = false)
    (hsim : isErr (env.notifySimple t info) = true)
    (hrich : ∀ a, isErr (env.notifyTweet t a) = true) :
    (Event.notifySimpleAttempt t.id ∈
        (processTweet env aiOn minScore info ⟨st, p, n, []⟩ t).events ∨
      Event.notifyRichAttempt t.id ∈
        (processTweet env aiOn minScore info ⟨st, p, n, []⟩ t).events) →
    ((processTweet env aiOn minScore info ⟨st, p, n, []⟩ t).st = st ∧
      ((processTweet env aiOn minScore info ⟨st, p, n, []⟩ t).st).Has t.id = false) := by
  intro hdel
  cases hsimc : env.notifySimple t info with
  | ok u => rw [hsimc] at hsim; exact absurd hsim (by simp [isErr])
  | error e =>
      cases aiOn with
      | false => simp [processTweet, hseen, hsimc]
      | true =>
          cases hana : env.analyze t info with
          | error e2 => simp [processTweet, hseen, hana, hsimc]
          | ok a =>
              have hr := hrich a
              cases hntc : env.notifyTweet t a with
              | ok u => rw [hntc] at hr; exact absurd hr (by simp [isErr])
              | error e3 =>
                  by_cases hsc : a.score < minScore
                  · exfalso
                    simp [processTweet, hseen, hana, hsc] at hdel
                  · simp [processTweet, hseen, hana, hsc, hntc]

/-- Witness for C1's amended theorem: with every delivery failing, the new
post `tweet1` is delivered-to (attempt present), and the store is unchanged
with `tweet1` still unseen. -/
theorem delivery_error_leaves_unseen_witness :
    (processTweet envDeliverFail false 0 "info" ⟨⟨[]⟩, 0, 0, []⟩ tweet1).st = ⟨[]⟩ ∧
    ((processTweet envDeliverFail false 0 "info" ⟨⟨[]⟩, 0, 0, []⟩ tweet1).st).Has tweet1.id = false :=
  delivery_error_leaves_unseen envDeliverFail false 0 "info" ⟨[]⟩ 0 0 tweet1
    (by decide) rfl (fun _ => rfl) (Or.inl (by decide))

/-- C4 counterexample: the scorer fails for the new post `"1"`, the
plain-mode fallback delivery is attempted but fails, and the identifier is
NOT added to the seen store — contrary to the claim that it is added
regardless. -/
theorem eval_error_fallback_counterexample :
    envDeliverFail.analyze tweet1 "info" = .error "ai down" ∧
    (processTweet envDeliverFail true 70 "info" ⟨⟨[]⟩, 0, 0, []⟩ tweet1).events =
      [Event.notifySimpleAttempt "1"] ∧
    ((processTweet envDeliverFail true 70 "info" ⟨⟨[]⟩, 0, 0, []⟩ tweet1).st).Has "1" = false := by
  refine ⟨rfl, ?_, ?_⟩ <;> decide

/-- C4 amended: when filtering is enabled and the scorer errors on a new
post, the plain-mode notification is attempted regardless of what the score
would have been; if that delivery succeeds the identifier is added to the
seen store (and the post counted notified); if the delivery fails the
identifier is NOT added. -/
theorem eval_error_fallback (env : Env) (minScore : Int) (info : String)
    (st : SeenTweets) (p n : Nat) (t : Tweet)
    (hseen : st.Has t.id = false)
    (haierr : isErr (env.analyze t info) = true) :
    Event.notifySimpleAttempt t.id ∈
      (processTweet env true minScore info ⟨st, p, n, []⟩ t).events ∧
    (isErr (env.notifySimple t info) = false →
      ((processTweet env true minScore info ⟨st, p, n, []⟩ t).st).Has t.id = true ∧
      (processTweet env true minScore info ⟨st, p, n, []⟩ t).notified = n + 1) ∧
    (isErr (env.notifySimple t info) = true →
      (processTweet env true minScore info ⟨st, p, n, []⟩ t).st = st) := by
  cases hana : env.analyze t info with
  | ok a => rw [hana] at haierr; exact absurd haierr (by simp [isErr])
  | error e =>
      cases hsimc : env.notifySimple t info with
      | ok u =>
          refine ⟨?_, ?_, ?_⟩
          · simp [processTweet, hseen, hana, hsimc]
          · intro _
            simp [processTweet, hseen, hana, hsimc, Has_Add_self]
          · intro hcontra
            simp [isErr] at hcontra
      | error e2 =>
          refine ⟨?_, ?_, ?_⟩
          · simp [processTweet, hseen, hana, hsimc]
          · intro hcontra
            simp [isErr] at hcontra
          · intro _
            simp [processTweet, hseen, hana, hsimc]

/-- The scorer fails but deliveries succeed. -/
def envAiDown : Env where
  fetchUser := fun _ => .ok [tweet1]
  fetchSearch := fun _ => .ok []
  analyze := fun _ _ => .error "ai down"
  notifySimple := fun _ _ => .ok ()
  notifyTweet := fun _ _ => .ok ()
  writeFile := fun _ => .ok ()

/-- Witness for C4's amended theorem: scorer down, fallback delivery
succeeds, the post is added to the store and counted notified. -/
theorem eval_error_fallback_witness :
    Event.notifySimpleAttempt tweet1.id ∈
      (processTweet envAiDown true 70 "info" ⟨⟨[]⟩, 0, 0, []⟩ tweet1).events ∧
    (isErr (envAiDown.notifySimple tweet1 "info") = false →
      ((processTweet envAiDown true 70 "info" ⟨⟨[]⟩, 0, 0, []⟩ tweet1).st).Has tweet1.id = true ∧
      (processTweet envAiDown true 70 "info" ⟨⟨[]⟩, 0, 0, []⟩ tweet1).notified = 0 + 1) ∧
    (isErr (envAiDown.notifySimple tweet1 "info") = true →
      (processTweet envAiDown true 70 "info" ⟨⟨[]⟩, 0, 0, []⟩ tweet1).st = ⟨[]⟩) :=
  eval_error_fallback envAiDown 70 "info" ⟨[]⟩ 0 0 tweet1 (by decide) rfl
